import Mathlib

/-!
Shallow embedding of the core of the `school_map` repository: the
buffer-zone risk-analysis engine (`BufferAnalysisService` in
`src/app/core/services/buffer-analysis.service.ts`, whose code sits in the
source pack alongside `school.model.ts`) and the school record linker
(`HybridSchoolService` in `src/app/core/services/hybrid-school.service.ts`).

Modelling conventions:
* IEEE doubles are modelled as exact rationals (ℚ).
* The turf.js geometry layer is modelled explicitly: `turf.buffer` of radius
  `r` km around a point `c` is the abstract region `Region.disc c r`;
  `turf.difference` of two concentric buffers is `Region.annulus`.
  Point-in-polygon tests are parametrised by an abstract geodesic distance
  function `gdist : P2 → P2 → ℚ` (kilometres), so every theorem holds for
  any distance the geometry library realises.
* The fallible `turf.difference` call (it can throw, or return null) is a
  capability parameter `diff : Region → Region → Option Region`; `none`
  models both the thrown and the null outcome, which the service's
  try/catch-plus-`|| outerPolygon` treats identically.
-/

namespace SchoolMap

/-- A geographic point as (latitude, longitude) in decimal degrees.
The TS sources pass `[number, number]` pairs ordered `[lat, lng]`
(see `getSchoolCenter`, which reads `c[0]` as latitude). -/
structure P2 where
  lat : ℚ
  lng : ℚ
deriving DecidableEq

/-- Regions produced by the geometry layer: `disc c r` models the turf
buffer of radius `r` km around `c` (the service converts its `[lat,lng]`
center to turf's `[lng,lat]` order at the call, so the canonical `P2` is
kept here); `annulus c rIn rOut` models the polygon difference of two
concentric buffers of radii `rOut` and `rIn`. -/
inductive Region where
  | disc (c : P2) (r : ℚ)
  | annulus (c : P2) (rIn rOut : ℚ)
deriving DecidableEq

/-- Membership of a point in a region, given the abstract geodesic distance
`gdist` realised by the geometry library: a buffered disc contains the
points at distance at most its radius, and the difference annulus contains
the points strictly beyond the inner radius and at most the outer one
(the area exclusive to the outer buffer). -/
def inRegion (gdist : P2 → P2 → ℚ) (p : P2) : Region → Bool
  | .disc c r => decide (gdist p c ≤ r)
  | .annulus c rIn rOut => decide (rIn < gdist p c ∧ gdist p c ≤ rOut)

/-- Model of `turf.difference` on the shapes this service feeds it: the
difference of two concentric discs with strictly smaller subtrahend is the
annulus between them; on any other input the model reports failure
(`none`), which the caller's fallback handles. -/
def turfDifference : Region → Region → Option Region
  | .disc c r, .disc c2 r2 =>
      if c = c2 ∧ r2 < r then some (.annulus c r2 r) else none
  | _, _ => none

/-- RiskLevel from `buffer-zone.model.ts`. -/
inductive RiskLevel where
  | high
  | medium
  | low
deriving DecidableEq

/-- BufferZone from `buffer-zone.model.ts`; `polygon` is the buffered disc
(always set by `createBufferZones`, so modelled as required). -/
structure BufferZone where
  id : ℕ
  radiusKm : ℚ
  riskLevel : RiskLevel
  color : String
  fillOpacity : ℚ
  polygon : Region
deriving DecidableEq

/-- BufferZoneStats from `buffer-zone.model.ts`. -/
structure BufferZoneStats where
  zoneId : ℕ
  radiusKm : ℚ
  riskLevel : RiskLevel
  schools : ℕ
  hospitals : ℕ
  police : ℕ
  fireStations : ℕ
  riskZones : ℕ
  total : ℕ
deriving DecidableEq

/-- Per-category totals of `BufferAnalysisResult.totalElements`. -/
structure TotalElements where
  schools : ℕ
  hospitals : ℕ
  police : ℕ
  fireStations : ℕ
  riskZones : ℕ
deriving DecidableEq

/-- BufferConfig from `buffer-analysis.service.ts`. -/
structure BufferConfig where
  totalRadius : ℚ
  zoneWidth : ℚ
deriving DecidableEq

/-- Default configuration `{ totalRadius: 5, zoneWidth: 1 }`; TS applies it
when the optional `config` argument is omitted, here resolved at call
sites. -/
def defaultConfig : BufferConfig := { totalRadius := 5, zoneWidth := 1 }

/-- LayerType from `layer.model.ts`. -/
inductive LayerType where
  | schools
  | hospitals
  | police
  | fire_stations
  | risk_zones
  | burned_areas
  | geology
  | natural_areas
  | natural_regions
  | soil_map
deriving DecidableEq

/-- LayerFeature from `layer.model.ts`; the opaque `properties` record is
modelled as a key-value list. -/
structure LayerFeature where
  id : String
  name : String
  layerType : LayerType
  coordinates : P2
  polygon : Option (List P2)
  properties : List (String × String)
deriving DecidableEq

/-- ContactInfo from `school.model.ts`. -/
structure ContactInfo where
  phone : String
  email : String
  website : Option String
deriving DecidableEq

/-- PolygonCoordinates from `school.model.ts`: a list of `[lat,lng]`
vertex pairs. -/
structure PolygonCoordinates where
  coordinates : List P2
deriving DecidableEq

/-- Source tag of `SchoolData.source`. -/
inductive SourceTag where
  | idecor
  | osm
  | hybrid
deriving DecidableEq

/-- SchoolData from `school.model.ts` (all fields optional in TS). -/
structure SchoolData where
  nivel : Option String
  sector : Option String
  ambito : Option String
  alumnos : Option ℚ
  estado : Option String
  cue : Option String
  source : Option SourceTag
deriving DecidableEq

/-- School from `school.model.ts`. -/
structure School where
  id : String
  name : String
  address : String
  contactInfo : ContactInfo
  polygon : PolygonCoordinates
  detected : Bool
  color : Option String
  additionalData : Option SchoolData
deriving DecidableEq

/-- calculateRiskLevel from `buffer-analysis.service.ts`:
ratio = zoneIndex / totalZones; ratio ≤ 0.6 → high, ratio ≤ 0.8 → medium,
otherwise low. -/
def calculateRiskLevel (zoneIndex totalZones : ℕ) : RiskLevel :=
  let ratio : ℚ := (zoneIndex : ℚ) / (totalZones : ℚ)
  if ratio ≤ 0.6 then .high
  else if ratio ≤ 0.8 then .medium
  else .low

/-- getRiskColor from `buffer-analysis.service.ts`. -/
def getRiskColor : RiskLevel → String
  | .high => "#e74c3c"
  | .medium => "#f39c12"
  | .low => "#27ae60"

/-- getFillOpacity from `buffer-analysis.service.ts`:
`0.35 - (zoneIndex / totalZones) * 0.2`. -/
def getFillOpacity (zoneIndex totalZones : ℕ) : ℚ :=
  0.35 - ((zoneIndex : ℚ) / (totalZones : ℚ)) * 0.2

/-- createBufferZones from `buffer-analysis.service.ts`:
`numZones = Math.ceil(totalRadius / zoneWidth)`, and for `i` in
`1..numZones` a zone of radius `min(i * zoneWidth, totalRadius)` whose
polygon is the turf buffer of that radius around the center. The TS
`for` loop over `i = 1..numZones` is rendered as a map over
`List.range numZones` with `i = k + 1`. -/
def createBufferZones (centerPoint : P2) (config : BufferConfig) : List BufferZone :=
  let numZones : ℕ := (⌈config.totalRadius / config.zoneWidth⌉).toNat
  (List.range numZones).map (fun k =>
    { id := k + 1
      radiusKm := min ((k + 1 : ℚ) * config.zoneWidth) config.totalRadius
      riskLevel := calculateRiskLevel (k + 1) numZones
      color := getRiskColor (calculateRiskLevel (k + 1) numZones)
      fillOpacity := getFillOpacity (k + 1) numZones
      polygon := Region.disc centerPoint
        (min ((k + 1 : ℚ) * config.zoneWidth) config.totalRadius) })

/-- getSchoolCenter from `buffer-analysis.service.ts`: the arithmetic mean
of the school's polygon vertices when the polygon has at least one vertex,
and the fixed point `[0, 0]` otherwise. -/
def getSchoolCenter (school : School) : P2 :=
  if school.polygon.coordinates.length > 0 then
    let coords := school.polygon.coordinates
    let sumLat := coords.foldl (fun sum c => sum + c.lat) 0
    let sumLng := coords.foldl (fun sum c => sum + c.lng) 0
    ⟨sumLat / coords.length, sumLng / coords.length⟩
  else ⟨0, 0⟩

/-- countPointsInPolygon from `buffer-analysis.service.ts`: the number of
the given points lying inside the polygon. -/
def countPointsInPolygon (gdist : P2 → P2 → ℚ) (points : List P2)
    (polygon : Region) : ℕ :=
  (points.filter (fun point => inRegion gdist point polygon)).length

/-- countFeaturesInPolygon from `buffer-analysis.service.ts`: the number of
features whose `coordinates` point lies inside the polygon. -/
def countFeaturesInPolygon (gdist : P2 → P2 → ℚ) (features : List LayerFeature)
    (polygon : Region) : ℕ :=
  (features.filter (fun feature => inRegion gdist feature.coordinates polygon)).length

/-- createRingPolygon from `buffer-analysis.service.ts`: with no inner
polygons the outer polygon itself; otherwise the difference of the outer
polygon and the **last** inner polygon, falling back to the outer polygon
when the difference throws or returns null (both modelled by `none`). -/
def createRingPolygon (diff : Region → Region → Option Region)
    (outerPolygon : Region) (innerPolygons : List Region) : Region :=
  match innerPolygons.getLast? with
  | none => outerPolygon
  | some innerPolygon => (diff outerPolygon innerPolygon).getD outerPolygon

/-- Statistics record built for one zone from its countable ring polygon;
the body of the arrow function inside `calculateStatistics`. -/
def zoneStatsFor (gdist : P2 → P2 → ℚ) (schools : List School)
    (layerFeatures : LayerType → List LayerFeature)
    (zone : BufferZone) (ringPolygon : Region) : BufferZoneStats :=
  let schoolsInZone :=
    countPointsInPolygon gdist (schools.map getSchoolCenter) ringPolygon
  let hospitalsInZone :=
    countFeaturesInPolygon gdist (layerFeatures .hospitals) ringPolygon
  let policeInZone :=
    countFeaturesInPolygon gdist (layerFeatures .police) ringPolygon
  let fireStationsInZone :=
    countFeaturesInPolygon gdist (layerFeatures .fire_stations) ringPolygon
  let riskZonesInZone :=
    countFeaturesInPolygon gdist (layerFeatures .risk_zones) ringPolygon
  { zoneId := zone.id
    radiusKm := zone.radiusKm
    riskLevel := zone.riskLevel
    schools := schoolsInZone
    hospitals := hospitalsInZone
    police := policeInZone
    fireStations := fireStationsInZone
    riskZones := riskZonesInZone
    total := schoolsInZone + hospitalsInZone + policeInZone +
      fireStationsInZone + riskZonesInZone }

/-- Recursion underlying `calculateStatistics`: the TS `zones.map` closure
mutates a `prevZonePolygons` array (pushing each zone's buffer after its
ring is computed); here that array is the explicit accumulator. -/
def statsGo (diff : Region → Region → Option Region) (gdist : P2 → P2 → ℚ)
    (schools : List School) (layerFeatures : LayerType → List LayerFeature) :
    List Region → List BufferZone → List BufferZoneStats
  | _, [] => []
  | prevZonePolygons, zone :: rest =>
    zoneStatsFor gdist schools layerFeatures zone
      (createRingPolygon diff zone.polygon prevZonePolygons) ::
    statsGo diff gdist schools layerFeatures
      (prevZonePolygons ++ [zone.polygon]) rest

/-- calculateStatistics from `buffer-analysis.service.ts`: one stats row per
zone, counting per category inside each zone's ring polygon. The TS
map lookup `layerFeatures.get(t) || []` is modelled by the total function
`layerFeatures : LayerType → List LayerFeature`. -/
def calculateStatistics (diff : Region → Region → Option Region)
    (gdist : P2 → P2 → ℚ) (zones : List BufferZone) (schools : List School)
    (layerFeatures : LayerType → List LayerFeature) : List BufferZoneStats :=
  statsGo diff gdist schools layerFeatures [] zones

/-- BufferAnalysisResult from `buffer-zone.model.ts`. -/
structure BufferAnalysisResult where
  centerPoint : P2
  zones : List BufferZone
  statistics : List BufferZoneStats
  totalElements : TotalElements
deriving DecidableEq

/-- analyzeBufferZones from `buffer-analysis.service.ts`: builds the zones,
computes per-zone statistics, and tallies raw per-category totals as plain
collection lengths, independent of zone membership. -/
def analyzeBufferZones (diff : Region → Region → Option Region)
    (gdist : P2 → P2 → ℚ) (centerPoint : P2) (schools : List School)
    (layerFeatures : LayerType → List LayerFeature)
    (config : BufferConfig) : BufferAnalysisResult :=
  let zones := createBufferZones centerPoint config
  { centerPoint := centerPoint
    zones := zones
    statistics := calculateStatistics diff gdist zones schools layerFeatures
    totalElements :=
      { schools := schools.length
        hospitals := (layerFeatures .hospitals).length
        police := (layerFeatures .police).length
        fireStations := (layerFeatures .fire_stations).length
        riskZones := (layerFeatures .risk_zones).length } }

/-- Character-level JS `toLowerCase`, covering the ASCII letters plus the
accented Latin capitals that occur in this domain's school names (the full
Unicode lowercasing of JS, restricted to the repertoire the two Argentine
data providers emit). -/
def jsLowerChar (c : Char) : Char :=
  if 'A' ≤ c ∧ c ≤ 'Z' then Char.ofNat (c.toNat + 32)
  else if c = Char.ofNat 0xC1 then Char.ofNat 0xE1  -- Á → á
  else if c = Char.ofNat 0xC9 then Char.ofNat 0xE9  -- É → é
  else if c = Char.ofNat 0xCD then Char.ofNat 0xED  -- Í → í
  else if c = Char.ofNat 0xD3 then Char.ofNat 0xF3  -- Ó → ó
  else if c = Char.ofNat 0xDA then Char.ofNat 0xFA  -- Ú → ú
  else if c = Char.ofNat 0xDC then Char.ofNat 0xFC  -- Ü → ü
  else if c = Char.ofNat 0xD1 then Char.ofNat 0xF1  -- Ñ → ñ
  else c

/-- Unicode NFD decomposition (`String.prototype.normalize('NFD')`),
modelled for the lowercase accented Latin letters of this domain; any
other character decomposes to itself. -/
def nfdChar (c : Char) : List Char :=
  if c = Char.ofNat 0xE1 then [Char.ofNat 0x61, Char.ofNat 0x301]      -- á
  else if c = Char.ofNat 0xE9 then [Char.ofNat 0x65, Char.ofNat 0x301] -- é
  else if c = Char.ofNat 0xED then [Char.ofNat 0x69, Char.ofNat 0x301] -- í
  else if c = Char.ofNat 0xF3 then [Char.ofNat 0x6F, Char.ofNat 0x301] -- ó
  else if c = Char.ofNat 0xFA then [Char.ofNat 0x75, Char.ofNat 0x301] -- ú
  else if c = Char.ofNat 0xFC then [Char.ofNat 0x75, Char.ofNat 0x308] -- ü
  else if c = Char.ofNat 0xF1 then [Char.ofNat 0x6E, Char.ofNat 0x303] -- ñ
  else [c]

/-- membership of a character in the combining-diacritical-marks block
U+0300 to U+036F, stripped by `normalizeSchoolName`. -/
def isCombiningMark (c : Char) : Bool :=
  decide (0x300 ≤ c.toNat ∧ c.toNat ≤ 0x36F)

/-- membership of a character in `[a-z0-9]`, the characters kept by
`normalizeSchoolName`'s final `replace(/[^a-z0-9]/g, '')`. -/
def isLowerAlnum (c : Char) : Bool :=
  decide (('a' ≤ c ∧ c ≤ 'z') ∨ ('0' ≤ c ∧ c ≤ '9'))

/-- normalizeSchoolName from `hybrid-school.service.ts`: lowercase, NFD
decompose, strip combining marks, and drop every remaining character
outside `[a-z0-9]`. -/
def normalizeSchoolName (name : String) : String :=
  String.mk ((((name.data.map jsLowerChar).flatMap nfdChar).filter
    (fun c => !(isCombiningMark c))).filter isLowerAlnum)

/-- getCenter from `hybrid-school.service.ts`: the componentwise mean of a
coordinate list. In ℚ the empty list yields (0/0, 0/0) = (0, 0), whereas
the JS original yields NaN there; the difference is unobservable in the
claims settled below (an empty polygon can never pass the
more-than-5-vertices upgrade check). -/
def getCenter (coords : List P2) : P2 :=
  let sum := coords.foldl (fun acc coord => (acc.1 + coord.lat, acc.2 + coord.lng))
    ((0 : ℚ), (0 : ℚ))
  ⟨sum.1 / coords.length, sum.2 / coords.length⟩

/-- proximity threshold `maxDistance = 0.002` decimal degrees of
`findNearestOSM`. -/
def maxDistance : ℚ := 0.002

/-- squared planar distance between two coordinate pairs. The source's
`calculateDistance` returns `Math.sqrt(dx*dx + dy*dy)` and its only
consumer compares that against `maxDistance`; since the square root is
strictly monotone on nonnegatives, the comparison `sqrt(dx²+dy²) <
maxDistance` is embedded as `dx²+dy² < maxDistance²`, keeping the model in
ℚ. -/
def calculateDistanceSq (coord1 coord2 : P2) : ℚ :=
  let dx := coord1.lat - coord2.lat
  let dy := coord1.lng - coord2.lng
  dx * dx + dy * dy

/-- findNearestOSM from `hybrid-school.service.ts`: the first secondary
record whose polygon centroid lies within `maxDistance` of the primary
record's polygon centroid (`List.find?` is the TS `for` loop with early
return). -/
def findNearestOSM (oficial : School) (osmSchools : List School) : Option School :=
  let oficialCenter := getCenter oficial.polygon.coordinates
  osmSchools.find? (fun osm =>
    decide (calculateDistanceSq oficialCenter (getCenter osm.polygon.coordinates) <
      maxDistance * maxDistance))

/-- SchoolData value with every field absent; the TS spread
`{...undefined, source: 'hybrid'}` builds its fields from this. -/
def emptySchoolData : SchoolData :=
  { nivel := none, sector := none, ambito := none, alumnos := none,
    estado := none, cue := none, source := none }

/-- TS spread `{...oficial.additionalData, source: 'hybrid'}`. -/
def setSourceHybrid (d : Option SchoolData) : SchoolData :=
  { d.getD emptySchoolData with source := some .hybrid }

/-- enrichment step applied to each primary record inside `mergeSchools`:
replace the polygon (and tag provenance hybrid) exactly when the first
within-threshold secondary match has a polygon of more than 5 vertices. -/
def enrichSchool (osmSchools : List School) (oficial : School) : School :=
  match findNearestOSM oficial osmSchools with
  | some osmMatch =>
    if osmMatch.polygon.coordinates.length > 5 then
      { oficial with
        polygon := osmMatch.polygon
        additionalData := some (setSourceHybrid oficial.additionalData) }
    else oficial
  | none => oficial

/-- mergeSchools from `hybrid-school.service.ts`: geometry-enrich every
primary record, then append the secondary records whose normalized name is
not among the normalized primary names (the TS `Set` membership test is
`List.contains` over the same normalized names). -/
def mergeSchools (oficiales osmSchools : List School) : List School :=
  let merged := oficiales.map (enrichSchool osmSchools)
  let oficialNames := oficiales.map (fun school => normalizeSchoolName school.name)
  let additionalOSM := osmSchools.filter
    (fun osm => !(oficialNames.contains (normalizeSchoolName osm.name)))
  merged ++ additionalOSM

/-- numZones of `createBufferZones`:
`Math.ceil(totalRadius / zoneWidth)`. -/
def numZonesOf (config : BufferConfig) : ℕ :=
  (⌈config.totalRadius / config.zoneWidth⌉).toNat

/-- list of the zone radii produced by `createBufferZones`:
`min((k+1) * zoneWidth, totalRadius)` for `k < numZones`. -/
def zoneRadii (config : BufferConfig) : List ℚ :=
  (List.range (numZonesOf config)).map
    (fun k : ℕ => min ((k + 1 : ℚ) * config.zoneWidth) config.totalRadius)

/-- annuli regions between consecutive radii of a list, starting from a
given inner radius: the exact rings that successive concentric-disc
differences produce. -/
def annuliFrom (c : P2) : ℚ → List ℚ → List Region
  | _, [] => []
  | rPrev, r :: rs => Region.annulus c rPrev r :: annuliFrom c r rs

/-- ring regions of a radii list: the innermost disc followed by the
annuli between consecutive radii. -/
def ringRegions (c : P2) : List ℚ → List Region
  | [] => []
  | r :: rs => Region.disc c r :: annuliFrom c r rs

/-- ring polygons computed by `statsGo` for a list of zone buffer
polygons, carrying the same `prevZonePolygons` accumulator. -/
def ringsOf (diff : Region → Region → Option Region) :
    List Region → List Region → List Region
  | _, [] => []
  | prev, p :: rest => createRingPolygon diff p prev :: ringsOf diff (prev ++ [p]) rest

/-- concrete geodesic-distance instance used by witnesses: a scaled
taxicab distance in degrees, a legitimate instance of the abstract
distance parameter. -/
def gdistEx : P2 → P2 → ℚ := fun p q => |p.lat - q.lat| + |p.lng - q.lng|

/-- layer map with every category empty. -/
def emptyLayers : LayerType → List LayerFeature := fun _ => []

/-- contact record with empty fields, for witness schools. -/
def noContact : ContactInfo := { phone := "", email := "", website := none }

/-- witness school whose 1-vertex polygon puts its centroid exactly at the
origin. -/
def schoolAtOrigin : School :=
  { id := "s0", name := "Escuela Centro", address := "", contactInfo := noContact,
    polygon := { coordinates := [⟨0, 0⟩] }, detected := false, color := none,
    additionalData := none }

/-- witness school with a zero-vertex polygon (unusable geometry). -/
def emptyPolygonSchool : School :=
  { id := "s9", name := "Sin Poligono", address := "", contactInfo := noContact,
    polygon := { coordinates := [] }, detected := false, color := none,
    additionalData := none }

/-- witness primary-source school: a 4-vertex square placeholder polygon
with centroid exactly at the origin. -/
def oficialAlfa : School :=
  { id := "p1", name := "Escuela Alfa", address := "", contactInfo := noContact,
    polygon := { coordinates :=
      [⟨0.0001, 0.0001⟩, ⟨0.0001, -0.0001⟩, ⟨-0.0001, -0.0001⟩, ⟨-0.0001, 0.0001⟩] },
    detected := false, color := none, additionalData := none }

/-- witness secondary-source school: a 6-vertex traced polygon with
centroid exactly at (0.001, 0), hence 0.001 degrees from `oficialAlfa`'s
centroid, and a name unrelated to any primary name. -/
def osmBeta : School :=
  { id := "o1", name := "Colegio Beta", address := "", contactInfo := noContact,
    polygon := { coordinates :=
      [⟨0.0013, 0⟩, ⟨0.0007, 0⟩, ⟨0.001, 0.0003⟩, ⟨0.001, -0.0003⟩,
       ⟨0.001, 0.0001⟩, ⟨0.001, -0.0001⟩] },
    detected := false, color := none, additionalData := none }

/-- witness secondary-source school: same 6-vertex polygon as `osmBeta`
but named so that its normalized name coincides with `oficialAlfa`'s
(exercising lowercasing, diacritic stripping and punctuation removal). -/
def osmAlfaAccented : School :=
  { osmBeta with
    id := "o2"
    name := String.mk ['E', 'S', 'C', 'U', 'E', 'L', 'A', ' ',
      Char.ofNat 0xC1, 'L', 'F', 'A', '!'] }

/-- witness secondary-source school named like `oficialAlfa` but with a
centroid far away from every primary centroid. -/
def osmFarAlfa : School :=
  { id := "o3", name := "Escuela Alfa", address := "", contactInfo := noContact,
    polygon := { coordinates := [⟨1, 1⟩] }, detected := false, color := none,
    additionalData := none }

/-- projection of the `SchoolData` fields other than `source` (an absent
record projects like the all-absent record, matching the TS spread of a
possibly-undefined object). -/
def sdFieldsExceptSource (d : Option SchoolData) :
    Option String × Option String × Option String × Option ℚ ×
    Option String × Option String :=
  let v := d.getD emptySchoolData
  (v.nivel, v.sector, v.ambito, v.alumnos, v.estado, v.cue)

/-! Helper lemmas about the zone builder. -/

theorem length_createBufferZones (c : P2) (cfg : BufferConfig) :
    (createBufferZones c cfg).length = numZonesOf cfg := by
  simp [createBufferZones, numZonesOf]

theorem getElem_createBufferZones (c : P2) (cfg : BufferConfig) (k : ℕ)
    (hk : k < (createBufferZones c cfg).length) :
    (createBufferZones c cfg)[k] =
      { id := k + 1
        radiusKm := min ((k + 1 : ℚ) * cfg.zoneWidth) cfg.totalRadius
        riskLevel := calculateRiskLevel (k + 1) (numZonesOf cfg)
        color := getRiskColor (calculateRiskLevel (k + 1) (numZonesOf cfg))
        fillOpacity := getFillOpacity (k + 1) (numZonesOf cfg)
        polygon := Region.disc c (min ((k + 1 : ℚ) * cfg.zoneWidth) cfg.totalRadius) } := by
  simp [createBufferZones, numZonesOf]

theorem numZonesOf_pos (cfg : BufferConfig) (hT : 0 < cfg.totalRadius)
    (hW : 0 < cfg.zoneWidth) : 0 < numZonesOf cfg := by
  have h1 : (0 : ℤ) < ⌈cfg.totalRadius / cfg.zoneWidth⌉ :=
    Int.ceil_pos.mpr (div_pos hT hW)
  simp only [numZonesOf]
  omega

theorem totalRadius_le_numZones_mul (cfg : BufferConfig) (hT : 0 < cfg.totalRadius)
    (hW : 0 < cfg.zoneWidth) :
    cfg.totalRadius ≤ (numZonesOf cfg : ℚ) * cfg.zoneWidth := by
  have h1 : (0 : ℤ) ≤ ⌈cfg.totalRadius / cfg.zoneWidth⌉ :=
    le_of_lt (Int.ceil_pos.mpr (div_pos hT hW))
  have h2 : cfg.totalRadius / cfg.zoneWidth ≤
      ((⌈cfg.totalRadius / cfg.zoneWidth⌉ : ℤ) : ℚ) := Int.le_ceil _
  have h3 : ((numZonesOf cfg : ℕ) : ℚ) = ((⌈cfg.totalRadius / cfg.zoneWidth⌉ : ℤ) : ℚ) := by
    have h4 : ((numZonesOf cfg : ℕ) : ℤ) = ⌈cfg.totalRadius / cfg.zoneWidth⌉ := by
      simp only [numZonesOf]
      omega
    exact_mod_cast h4
  rw [h3]
  rw [div_le_iff₀ hW] at h2
  exact h2

theorem zoneRadius_lt_of_lt (cfg : BufferConfig) (hW : 0 < cfg.zoneWidth) (k : ℕ)
    (hk : k + 1 < numZonesOf cfg) :
    min ((k + 1 : ℚ) * cfg.zoneWidth) cfg.totalRadius <
    min ((k + 1 + 1 : ℚ) * cfg.zoneWidth) cfg.totalRadius := by
  have h1 : ((k + 1 : ℕ) : ℤ) < ⌈cfg.totalRadius / cfg.zoneWidth⌉ := by
    simp only [numZonesOf] at hk
    omega
  have h2 : (((k + 1 : ℕ) : ℤ) : ℚ) < cfg.totalRadius / cfg.zoneWidth := Int.lt_ceil.mp h1
  have h3 : (k + 1 : ℚ) * cfg.zoneWidth < cfg.totalRadius := by
    rw [lt_div_iff₀ hW] at h2
    push_cast at h2
    exact h2
  rw [min_eq_left h3.le]
  refine lt_min ?_ h3
  have : (k + 1 : ℚ) < k + 1 + 1 := by norm_num
  exact mul_lt_mul_of_pos_right this hW

theorem zoneRadii_length (cfg : BufferConfig) :
    (zoneRadii cfg).length = numZonesOf cfg := by
  simp [zoneRadii]

theorem zoneRadii_ne_nil (cfg : BufferConfig) (hT : 0 < cfg.totalRadius)
    (hW : 0 < cfg.zoneWidth) : zoneRadii cfg ≠ [] := by
  have h := numZonesOf_pos cfg hT hW
  rw [← List.length_pos, zoneRadii_length]
  exact h

theorem zoneRadii_chain (cfg : BufferConfig) (hW : 0 < cfg.zoneWidth) :
    List.Chain' (· < ·) (zoneRadii cfg) := by
  rw [List.chain'_iff_get]
  intro i h
  have hi : i + 1 < numZonesOf cfg := by
    rw [zoneRadii_length] at h
    omega
  have hstep := zoneRadius_lt_of_lt cfg hW i hi
  simp only [zoneRadii, List.get_eq_getElem, List.getElem_map, List.getElem_range]
  convert hstep using 3
  push_cast
  ring

theorem zoneRadii_getLastD (cfg : BufferConfig) (hT : 0 < cfg.totalRadius)
    (hW : 0 < cfg.zoneWidth) (x : ℚ) :
    (zoneRadii cfg).getLastD x = cfg.totalRadius := by
  have hn := numZonesOf_pos cfg hT hW
  have hlt : numZonesOf cfg - 1 < numZonesOf cfg := by omega
  rw [List.getLastD_eq_getLast?, List.getLast?_eq_getElem?]
  simp only [zoneRadii, List.length_map, List.length_range, List.getElem?_map,
    List.getElem?_range hlt]
  have hcast : ((numZonesOf cfg - 1 : ℕ) : ℚ) + 1 = (numZonesOf cfg : ℚ) := by
    push_cast [Nat.cast_sub hn]
    ring
  show min ((((numZonesOf cfg - 1 : ℕ) : ℚ) + 1) * cfg.zoneWidth) cfg.totalRadius =
    cfg.totalRadius
  rw [hcast, min_eq_right (totalRadius_le_numZones_mul cfg hT hW)]

theorem createBufferZones_map_polygon (c : P2) (cfg : BufferConfig) :
    (createBufferZones c cfg).map (fun z => z.polygon) =
    (zoneRadii cfg).map (Region.disc c) := by
  simp [createBufferZones, zoneRadii, numZonesOf, List.map_map, Function.comp]

/-! Helper lemmas about ring regions and counting. -/

theorem chain_le_getLastD (rs : List ℚ) :
    ∀ r : ℚ, List.Chain (· < ·) r rs → r ≤ rs.getLastD r := by
  induction rs with
  | nil => intro r _; simp
  | cons a l ih =>
    intro r hch
    rw [List.chain_cons] at hch
    rw [List.getLastD_cons]
    exact le_trans (le_of_lt hch.1) (ih a hch.2)

theorem annuliFrom_countP (gdist : P2 → P2 → ℚ) (c p : P2) (rs : List ℚ) :
    ∀ r0 : ℚ, List.Chain (· < ·) r0 rs →
    (annuliFrom c r0 rs).countP (fun R => inRegion gdist p R) =
    if r0 < gdist p c ∧ gdist p c ≤ rs.getLastD r0 then 1 else 0 := by
  induction rs with
  | nil =>
    intro r0 _
    rw [if_neg]
    · rfl
    · rintro ⟨h1, h2⟩
      simp only [List.getLastD_nil] at h2
      exact absurd h1 (not_lt.mpr h2)
  | cons r rs ih =>
    intro r0 hch
    rw [List.chain_cons] at hch
    obtain ⟨h0r, hch'⟩ := hch
    have hlast := chain_le_getLastD rs r hch'
    rw [List.getLastD_cons]
    simp only [annuliFrom, List.countP_cons]
    rw [ih r hch']
    have hmem : (inRegion gdist p (Region.annulus c r0 r) = true) ↔
        (r0 < gdist p c ∧ gdist p c ≤ r) := by
      simp [inRegion]
    simp only [hmem]
    rcases le_or_lt (gdist p c) r0 with h1 | h1
    · have e1 : ¬(r < gdist p c ∧ gdist p c ≤ rs.getLastD r) := by
        rintro ⟨hh, -⟩
        exact absurd hh (not_lt.mpr (h1.trans h0r.le))
      have e2 : ¬(r0 < gdist p c ∧ gdist p c ≤ r) := by
        rintro ⟨hh, -⟩
        exact absurd hh (not_lt.mpr h1)
      have e3 : ¬(r0 < gdist p c ∧ gdist p c ≤ rs.getLastD r) := by
        rintro ⟨hh, -⟩
        exact absurd hh (not_lt.mpr h1)
      simp only [if_neg e1, if_neg e2, if_neg e3]
    · rcases le_or_lt (gdist p c) r with h2 | h2
      · have e1 : ¬(r < gdist p c ∧ gdist p c ≤ rs.getLastD r) := by
          rintro ⟨hh, -⟩
          exact absurd hh (not_lt.mpr h2)
        have p2 : r0 < gdist p c ∧ gdist p c ≤ r := ⟨h1, h2⟩
        have p3 : r0 < gdist p c ∧ gdist p c ≤ rs.getLastD r := ⟨h1, h2.trans hlast⟩
        simp only [if_neg e1, if_pos p2, if_pos p3]
      · have e2 : ¬(r0 < gdist p c ∧ gdist p c ≤ r) := by
          rintro ⟨-, hh⟩
          exact absurd hh (not_le.mpr h2)
        rcases le_or_lt (gdist p c) (rs.getLastD r) with h3 | h3
        · have p1 : r < gdist p c ∧ gdist p c ≤ rs.getLastD r := ⟨h2, h3⟩
          have p3 : r0 < gdist p c ∧ gdist p c ≤ rs.getLastD r := ⟨h1, h3⟩
          simp only [if_pos p1, if_neg e2, if_pos p3]
        · have e1 : ¬(r < gdist p c ∧ gdist p c ≤ rs.getLastD r) := by
            rintro ⟨-, hh⟩
            exact absurd hh (not_le.mpr h3)
          have e3 : ¬(r0 < gdist p c ∧ gdist p c ≤ rs.getLastD r) := by
            rintro ⟨-, hh⟩
            exact absurd hh (not_le.mpr h3)
          simp only [if_neg e1, if_neg e2, if_neg e3]

theorem ringRegions_countP (gdist : P2 → P2 → ℚ) (c p : P2) (r1 : ℚ) (rs : List ℚ)
    (hch : List.Chain (· < ·) r1 rs) :
    (ringRegions c (r1 :: rs)).countP (fun R => inRegion gdist p R) =
    if gdist p c ≤ rs.getLastD r1 then 1 else 0 := by
  have hlast := chain_le_getLastD rs r1 hch
  simp only [ringRegions, List.countP_cons]
  rw [annuliFrom_countP gdist c p rs r1 hch]
  have hmem : (inRegion gdist p (Region.disc c r1) = true) ↔ (gdist p c ≤ r1) := by
    simp [inRegion]
  simp only [hmem]
  rcases le_or_lt (gdist p c) r1 with h1 | h1
  · have e1 : ¬(r1 < gdist p c ∧ gdist p c ≤ rs.getLastD r1) := by
      rintro ⟨hh, -⟩
      exact absurd hh (not_lt.mpr h1)
    simp only [if_neg e1, if_pos h1, if_pos (le_trans h1 hlast)]
  · have e2 : ¬(gdist p c ≤ r1) := not_le.mpr h1
    rcases le_or_lt (gdist p c) (rs.getLastD r1) with h2 | h2
    · have p1 : r1 < gdist p c ∧ gdist p c ≤ rs.getLastD r1 := ⟨h1, h2⟩
      simp only [if_pos p1, if_neg e2, if_pos h2]
    · have e1 : ¬(r1 < gdist p c ∧ gdist p c ≤ rs.getLastD r1) := by
        rintro ⟨-, hh⟩
        exact absurd hh (not_le.mpr h2)
      simp only [if_neg e1, if_neg e2, if_neg (not_le.mpr h2)]

theorem ringRegions_countP_le_one (gdist : P2 → P2 → ℚ) (c p : P2) (r1 : ℚ)
    (rs : List ℚ) (hch : List.Chain (· < ·) r1 rs) :
    (ringRegions c (r1 :: rs)).countP (fun R => inRegion gdist p R) ≤ 1 := by
  rw [ringRegions_countP gdist c p r1 rs hch]
  split <;> omega

theorem sum_map_add_nat {α : Type} (l : List α) (f g : α → ℕ) :
    (l.map (fun x => f x + g x)).sum = (l.map f).sum + (l.map g).sum := by
  induction l with
  | nil => rfl
  | cons a l ih =>
    simp only [List.map_cons, List.sum_cons, ih]
    omega

theorem sum_map_ite_count {α : Type} (l : List α) (q : α → Bool) :
    (l.map (fun x => if q x then 1 else 0)).sum = l.countP q := by
  induction l with
  | nil => rfl
  | cons a l ih =>
    simp only [List.map_cons, List.sum_cons, List.countP_cons, ih]
    omega

theorem counts_swap (pts : List P2) (rings : List Region) (mem : P2 → Region → Bool) :
    (rings.map (fun R => pts.countP (fun p => mem p R))).sum =
    (pts.map (fun p => rings.countP (fun R => mem p R))).sum := by
  induction pts with
  | nil =>
    simp only [List.countP_nil, List.map_nil, List.sum_nil]
    exact List.sum_eq_zero (fun x hx => by
      obtain ⟨R, _, h⟩ := List.mem_map.mp hx
      exact h.symm)
  | cons p ps ih =>
    simp only [List.countP_cons, List.map_cons, List.sum_cons]
    rw [sum_map_add_nat rings (fun R => ps.countP (fun q => mem q R))
      (fun R => if mem p R then 1 else 0), ih,
      sum_map_ite_count rings (fun R => mem p R)]
    omega

/-! Helper lemmas connecting `statsGo` to the ring polygons it counts in. -/

theorem countPointsInPolygon_eq_countP (gdist : P2 → P2 → ℚ) (pts : List P2)
    (R : Region) :
    countPointsInPolygon gdist pts R = pts.countP (fun p => inRegion gdist p R) :=
  (List.countP_eq_length_filter _ _).symm

theorem countFeaturesInPolygon_eq_points (gdist : P2 → P2 → ℚ)
    (feats : List LayerFeature) (R : Region) :
    countFeaturesInPolygon gdist feats R =
    countPointsInPolygon gdist (feats.map (fun f => f.coordinates)) R := by
  rw [countPointsInPolygon_eq_countP, countFeaturesInPolygon,
    ← List.countP_eq_length_filter, List.countP_map]
  rfl

theorem statsGo_map_schools (diff : Region → Region → Option Region)
    (gdist : P2 → P2 → ℚ) (schools : List School)
    (layerFeatures : LayerType → List LayerFeature) (zones : List BufferZone) :
    ∀ prev : List Region,
    (statsGo diff gdist schools layerFeatures prev zones).map (fun st => st.schools) =
    (ringsOf diff prev (zones.map (fun z => z.polygon))).map
      (fun R => countPointsInPolygon gdist (schools.map getSchoolCenter) R) := by
  induction zones with
  | nil => intro prev; rfl
  | cons z rest ih =>
    intro prev
    simp only [statsGo, ringsOf, List.map_cons, ih, zoneStatsFor]

theorem statsGo_map_hospitals (diff : Region → Region → Option Region)
    (gdist : P2 → P2 → ℚ) (schools : List School)
    (layerFeatures : LayerType → List LayerFeature) (zones : List BufferZone) :
    ∀ prev : List Region,
    (statsGo diff gdist schools layerFeatures prev zones).map (fun st => st.hospitals) =
    (ringsOf diff prev (zones.map (fun z => z.polygon))).map
      (fun R => countFeaturesInPolygon gdist (layerFeatures .hospitals) R) := by
  induction zones with
  | nil => intro prev; rfl
  | cons z rest ih =>
    intro prev
    simp only [statsGo, ringsOf, List.map_cons, ih, zoneStatsFor]

theorem statsGo_map_police (diff : Region → Region → Option Region)
    (gdist : P2 → P2 → ℚ) (schools : List School)
    (layerFeatures : LayerType → List LayerFeature) (zones : List BufferZone) :
    ∀ prev : List Region,
    (statsGo diff gdist schools layerFeatures prev zones).map (fun st => st.police) =
    (ringsOf diff prev (zones.map (fun z => z.polygon))).map
      (fun R => countFeaturesInPolygon gdist (layerFeatures .police) R) := by
  induction zones with
  | nil => intro prev; rfl
  | cons z rest ih =>
    intro prev
    simp only [statsGo, ringsOf, List.map_cons, ih, zoneStatsFor]

theorem statsGo_map_fireStations (diff : Region → Region → Option Region)
    (gdist : P2 → P2 → ℚ) (schools : List School)
    (layerFeatures : LayerType → List LayerFeature) (zones : List BufferZone) :
    ∀ prev : List Region,
    (statsGo diff gdist schools layerFeatures prev zones).map
      (fun st => st.fireStations) =
    (ringsOf diff prev (zones.map (fun z => z.polygon))).map
      (fun R => countFeaturesInPolygon gdist (layerFeatures .fire_stations) R) := by
  induction zones with
  | nil => intro prev; rfl
  | cons z rest ih =>
    intro prev
    simp only [statsGo, ringsOf, List.map_cons, ih, zoneStatsFor]

theorem statsGo_map_riskZones (diff : Region → Region → Option Region)
    (gdist : P2 → P2 → ℚ) (schools : List School)
    (layerFeatures : LayerType → List LayerFeature) (zones : List BufferZone) :
    ∀ prev : List Region,
    (statsGo diff gdist schools layerFeatures prev zones).map (fun st => st.riskZones) =
    (ringsOf diff prev (zones.map (fun z => z.polygon))).map
      (fun R => countFeaturesInPolygon gdist (layerFeatures .risk_zones) R) := by
  induction zones with
  | nil => intro prev; rfl
  | cons z rest ih =>
    intro prev
    simp only [statsGo, ringsOf, List.map_cons, ih, zoneStatsFor]

/-! Helper lemmas identifying the rings built from concentric buffers. -/

theorem ringsOf_discs (c : P2) (rs : List ℚ) :
    ∀ (prev : List Region) (r0 : ℚ), prev.getLast? = some (Region.disc c r0) →
    List.Chain (· < ·) r0 rs →
    ringsOf turfDifference prev (rs.map (Region.disc c)) = annuliFrom c r0 rs := by
  induction rs with
  | nil => intro prev r0 _ _; rfl
  | cons r rs ih =>
    intro prev r0 hlast hch
    rw [List.chain_cons] at hch
    simp only [List.map_cons, ringsOf, annuliFrom]
    have h1 : createRingPolygon turfDifference (Region.disc c r) prev =
        Region.annulus c r0 r := by
      simp only [createRingPolygon, hlast]
      simp [turfDifference, hch.1]
    rw [h1, ih (prev ++ [Region.disc c r]) r (List.getLast?_concat prev) hch.2]

theorem ringsOf_nil_eq_ringRegions (c : P2) (rs : List ℚ)
    (hch : List.Chain' (· < ·) rs) :
    ringsOf turfDifference [] (rs.map (Region.disc c)) = ringRegions c rs := by
  cases rs with
  | nil => rfl
  | cons r rs' =>
    simp only [List.map_cons, ringsOf, ringRegions, List.nil_append]
    have h1 : createRingPolygon turfDifference (Region.disc c r) [] = Region.disc c r := rfl
    rw [h1, ringsOf_discs c rs' [Region.disc c r] r rfl hch]

theorem ringSum (c : P2) (r1 : ℚ) (rs : List ℚ) (gdist : P2 → P2 → ℚ)
    (pts : List P2) (hch : List.Chain (· < ·) r1 rs) :
    ((ringRegions c (r1 :: rs)).map (fun R => countPointsInPolygon gdist pts R)).sum =
    countPointsInPolygon gdist pts (Region.disc c (rs.getLastD r1)) := by
  simp only [countPointsInPolygon_eq_countP]
  rw [counts_swap pts (ringRegions c (r1 :: rs)) (fun p R => inRegion gdist p R)]
  have hpt : ∀ p : P2,
      (ringRegions c (r1 :: rs)).countP (fun R => inRegion gdist p R) =
      if inRegion gdist p (Region.disc c (rs.getLastD r1)) then 1 else 0 := by
    intro p
    rw [ringRegions_countP gdist c p r1 rs hch]
    simp [inRegion]
  simp only [hpt]
  rw [sum_map_ite_count pts
    (fun p => inRegion gdist p (Region.disc c (rs.getLastD r1)))]

theorem bufferRingSum (c : P2) (cfg : BufferConfig) (hT : 0 < cfg.totalRadius)
    (hW : 0 < cfg.zoneWidth) (gdist : P2 → P2 → ℚ) (pts : List P2) :
    ((ringsOf turfDifference []
      ((createBufferZones c cfg).map (fun z => z.polygon))).map
      (fun R => countPointsInPolygon gdist pts R)).sum =
    countPointsInPolygon gdist pts (Region.disc c cfg.totalRadius) := by
  rw [createBufferZones_map_polygon]
  obtain ⟨r1, rs', heq⟩ := List.exists_cons_of_ne_nil (zoneRadii_ne_nil cfg hT hW)
  have hch : List.Chain (· < ·) r1 rs' := by
    have h := zoneRadii_chain cfg hW
    rw [heq] at h
    exact h
  have hlast : rs'.getLastD r1 = cfg.totalRadius := by
    have h := zoneRadii_getLastD cfg hT hW r1
    rw [heq, List.getLastD_cons] at h
    exact h
  rw [heq, ringsOf_nil_eq_ringRegions c (r1 :: rs') hch, ringSum c r1 rs' gdist pts hch,
    hlast]

theorem createBufferZones_map_radius (c : P2) (cfg : BufferConfig) :
    (createBufferZones c cfg).map (fun z => z.radiusKm) = zoneRadii cfg := by
  simp [createBufferZones, zoneRadii, numZonesOf, List.map_map, Function.comp]

/-- C1: for every center and every configuration with positive total radius
and zone width, `createBufferZones` returns exactly
`ceil(totalRadius / zoneWidth)` zones; zone `i` (1-based) has
`radiusKm = min(i * zoneWidth, totalRadius)`; the radii are non-decreasing
in the zone id, never exceed the configured total radius, and the last
zone's radius equals the total radius exactly; width 3 with total 5 yields
radii [3, 5]. -/
theorem C1_zone_construction (c : P2) (cfg : BufferConfig)
    (hT : 0 < cfg.totalRadius) (hW : 0 < cfg.zoneWidth) :
    (createBufferZones c cfg).length = (⌈cfg.totalRadius / cfg.zoneWidth⌉).toNat ∧
    0 < (⌈cfg.totalRadius / cfg.zoneWidth⌉).toNat ∧
    (∀ (k : ℕ) (hk : k < (createBufferZones c cfg).length),
      ((createBufferZones c cfg)[k]).id = k + 1 ∧
      ((createBufferZones c cfg)[k]).radiusKm =
        min ((k + 1 : ℚ) * cfg.zoneWidth) cfg.totalRadius) ∧
    (∀ (j k : ℕ) (hj : j < (createBufferZones c cfg).length)
      (hk : k < (createBufferZones c cfg).length), j ≤ k →
      ((createBufferZones c cfg)[j]).radiusKm ≤
      ((createBufferZones c cfg)[k]).radiusKm) ∧
    (∀ (k : ℕ) (hk : k < (createBufferZones c cfg).length),
      ((createBufferZones c cfg)[k]).radiusKm ≤ cfg.totalRadius) ∧
    ((createBufferZones c cfg).map (fun z => z.radiusKm)).getLastD 0 =
      cfg.totalRadius ∧
    (createBufferZones c ⟨5, 3⟩).map (fun z => z.radiusKm) = [3, 5] := by
  refine ⟨?_, ?_, ?_, ?_, ?_, ?_, ?_⟩
  · simpa [numZonesOf] using length_createBufferZones c cfg
  · exact numZonesOf_pos cfg hT hW
  · intro k hk
    rw [getElem_createBufferZones c cfg k hk]
    exact ⟨rfl, rfl⟩
  · intro j k hj hk hjk
    rw [getElem_createBufferZones c cfg j hj, getElem_createBufferZones c cfg k hk]
    refine min_le_min ?_ le_rfl
    have hcast : (j + 1 : ℚ) ≤ (k + 1 : ℚ) := by
      have : (j : ℚ) ≤ (k : ℚ) := by exact_mod_cast hjk
      linarith
    exact mul_le_mul_of_nonneg_right hcast hW.le
  · intro k hk
    rw [getElem_createBufferZones c cfg k hk]
    exact min_le_right _ _
  · rw [createBufferZones_map_radius]
    exact zoneRadii_getLastD cfg hT hW 0
  · have h : (⌈(5 : ℚ) / 3⌉).toNat = 2 := by
      have h2 : (⌈(5 : ℚ) / 3⌉ : ℤ) = 2 := by norm_num [Int.ceil_eq_iff]
      rw [h2]
      rfl
    simp only [createBufferZones, h]
    norm_num [List.range_succ]

/-- Witness for C1 at center (0, 0) and the configuration with total
radius 5 and zone width 3. -/
theorem C1_zone_construction_witness :
    (0 : ℚ) < (5 : ℚ) ∧ (0 : ℚ) < (3 : ℚ) ∧
    (createBufferZones ⟨0, 0⟩ ⟨5, 3⟩).map (fun z => z.radiusKm) = [3, 5] :=
  ⟨by norm_num, by norm_num,
    (C1_zone_construction ⟨0, 0⟩ ⟨5, 3⟩ (by norm_num) (by norm_num)).2.2.2.2.2.2⟩

/-- C7: zone `i` of `numZones` is assigned its risk level by the ratio
`i / numZones`: high when the ratio is at most 0.6, medium when it is at
most 0.8, low otherwise; for width 1 and total 5 the five zones come out
[high, high, high, medium, low]. -/
theorem C7_risk_levels :
    (∀ i n : ℕ, calculateRiskLevel i n =
      if (i : ℚ) / (n : ℚ) ≤ 0.6 then RiskLevel.high
      else if (i : ℚ) / (n : ℚ) ≤ 0.8 then RiskLevel.medium
      else RiskLevel.low) ∧
    (∀ (c : P2) (cfg : BufferConfig) (k : ℕ)
      (hk : k < (createBufferZones c cfg).length),
      ((createBufferZones c cfg)[k]).riskLevel =
        calculateRiskLevel (k + 1) (numZonesOf cfg)) ∧
    (∀ c : P2, (createBufferZones c ⟨5, 1⟩).map (fun z => z.riskLevel) =
      [RiskLevel.high, RiskLevel.high, RiskLevel.high,
        RiskLevel.medium, RiskLevel.low]) := by
  refine ⟨fun i n => rfl, ?_, ?_⟩
  · intro c cfg k hk
    rw [getElem_createBufferZones c cfg k hk]
  · intro c
    have h : (⌈(5 : ℚ) / 1⌉).toNat = 5 := by
      have h2 : (⌈(5 : ℚ) / 1⌉ : ℤ) = 5 := by norm_num [Int.ceil_eq_iff]
      rw [h2]
      rfl
    simp only [createBufferZones, h]
    norm_num [List.range_succ, calculateRiskLevel]

/-- Witness for C7 at center (0, 0) with width 1 and total radius 5. -/
theorem C7_risk_levels_witness :
    (createBufferZones ⟨0, 0⟩ ⟨5, 1⟩).map (fun z => z.riskLevel) =
      [RiskLevel.high, RiskLevel.high, RiskLevel.high,
        RiskLevel.medium, RiskLevel.low] :=
  C7_risk_levels.2.2 ⟨0, 0⟩

theorem createRingPolygon_concat (diff : Region → Region → Option Region)
    (outer p : Region) (prev : List Region) :
    createRingPolygon diff outer (prev ++ [p]) = (diff outer p).getD outer := by
  simp only [createRingPolygon, List.getLast?_concat]

theorem ringsOf_length (diff : Region → Region → Option Region)
    (polys : List Region) :
    ∀ prev : List Region, (ringsOf diff prev polys).length = polys.length := by
  induction polys with
  | nil => intro prev; rfl
  | cons p ps ih =>
    intro prev
    simp [ringsOf, ih]

theorem ringsOf_getElem?_succ (diff : Region → Region → Option Region)
    (polys : List Region) :
    ∀ (prev : List Region) (k : ℕ) (hk : k + 1 < polys.length),
    (ringsOf diff prev polys)[k + 1]? =
      some ((diff polys[k + 1] polys[k]).getD polys[k + 1]) := by
  induction polys with
  | nil =>
    intro prev k hk
    exact absurd hk (by simp)
  | cons p ps ih =>
    intro prev k hk
    cases k with
    | zero =>
      cases ps with
      | nil => exact absurd hk (by simp)
      | cons q ps' =>
        simp only [ringsOf, List.getElem?_cons_succ, List.getElem?_cons_zero,
          List.getElem_cons_succ, List.getElem_cons_zero]
        rw [createRingPolygon_concat diff q p prev]
    | succ j =>
      have hk' : j + 1 < ps.length := by
        simpa using hk
      have h := ih (prev ++ [p]) j hk'
      simp only [ringsOf, List.getElem?_cons_succ, List.getElem_cons_succ]
      exact h

theorem annuliFrom_length (c : P2) (rs : List ℚ) :
    ∀ r0 : ℚ, (annuliFrom c r0 rs).length = rs.length := by
  induction rs with
  | nil => intro r0; rfl
  | cons r rs ih =>
    intro r0
    simp [annuliFrom, ih]

theorem annuliFrom_mem (c : P2) (rs : List ℚ) :
    ∀ (r0 : ℚ), List.Chain (· < ·) r0 rs →
    ∀ R ∈ annuliFrom c r0 rs, ∃ a b : ℚ, R = Region.annulus c a b ∧ r0 ≤ a := by
  induction rs with
  | nil =>
    intro r0 _ R hR
    exact absurd hR (by simp [annuliFrom])
  | cons r rs ih =>
    intro r0 hch R hR
    rw [List.chain_cons] at hch
    simp only [annuliFrom, List.mem_cons] at hR
    rcases hR with h | h
    · exact ⟨r0, r, h, le_rfl⟩
    · obtain ⟨a, b, hab, hle⟩ := ih r hch.2 R h
      exact ⟨a, b, hab, le_trans hch.1.le hle⟩

/-- C3: zone 1's countable ring is its own full buffer; for a later zone
the ring is the difference of its full buffer and the immediately
preceding zone's full buffer, and whenever the difference operation fails
(throws or returns a degenerate/null result, both modelled by `none`) the
aggregator falls back to the zone's own full buffer instead of
propagating an error; the per-zone statistics count exactly inside these
rings. -/
theorem C3_ring_construction :
    (∀ (diff : Region → Region → Option Region) (outer : Region),
      createRingPolygon diff outer [] = outer) ∧
    (∀ (diff : Region → Region → Option Region) (outer : Region)
      (inners : List Region) (last : Region), inners.getLast? = some last →
      (diff outer last = none → createRingPolygon diff outer inners = outer) ∧
      (∀ d : Region, diff outer last = some d →
        createRingPolygon diff outer inners = d)) ∧
    (∀ (diff : Region → Region → Option Region) (p : Region)
      (polys : List Region),
      (ringsOf diff [] (p :: polys))[0]? = some p) ∧
    (∀ (diff : Region → Region → Option Region) (polys : List Region)
      (k : ℕ) (hk : k + 1 < polys.length),
      (ringsOf diff [] polys)[k + 1]? =
        some ((diff polys[k + 1] polys[k]).getD polys[k + 1])) ∧
    (∀ (diff : Region → Region → Option Region) (gdist : P2 → P2 → ℚ)
      (zones : List BufferZone) (schools : List School)
      (layers : LayerType → List LayerFeature),
      (calculateStatistics diff gdist zones schools layers).map
        (fun st => st.schools) =
      (ringsOf diff [] (zones.map (fun z => z.polygon))).map
        (fun R => countPointsInPolygon gdist (schools.map getSchoolCenter) R)) := by
  refine ⟨fun diff outer => rfl, ?_, ?_, ?_, ?_⟩
  · intro diff outer inners last hlast
    constructor
    · intro hnone
      simp only [createRingPolygon, hlast, hnone, Option.getD_none]
    · intro d hsome
      simp only [createRingPolygon, hlast, hsome, Option.getD_some]
  · intro diff p polys
    simp only [ringsOf, List.getElem?_cons_zero]
    rfl
  · intro diff polys k hk
    exact ringsOf_getElem?_succ diff polys [] k hk
  · intro diff gdist zones schools layers
    exact statsGo_map_schools diff gdist schools layers zones []

/-- Witness for C3: two concentric buffers of radii 1 and 2 around the
origin; the successful difference yields the annulus between them as zone
2's ring, and a failing difference falls back to zone 2's own buffer. -/
theorem C3_ring_construction_witness :
    (ringsOf turfDifference []
      [Region.disc ⟨0, 0⟩ 1, Region.disc ⟨0, 0⟩ 2])[0 + 1]? =
      some (Region.annulus ⟨0, 0⟩ 1 2) ∧
    (ringsOf (fun _ _ => none) []
      [Region.disc ⟨0, 0⟩ 1, Region.disc ⟨0, 0⟩ 2])[0 + 1]? =
      some (Region.disc ⟨0, 0⟩ 2) := by
  constructor
  · have h := C3_ring_construction.2.2.2.1 turfDifference
      [Region.disc ⟨0, 0⟩ 1, Region.disc ⟨0, 0⟩ 2] 0 (by norm_num)
    rw [h]
    norm_num [turfDifference]
  · have h := C3_ring_construction.2.2.2.1 (fun _ _ => none)
      [Region.disc ⟨0, 0⟩ 1, Region.disc ⟨0, 0⟩ 2] 0 (by norm_num)
    rw [h]
    rfl

theorem rings_countP_zero (c : P2) (cfg : BufferConfig) (hT : 0 < cfg.totalRadius)
    (hW : 0 < cfg.zoneWidth) (gdist : P2 → P2 → ℚ) (p : P2)
    (hout : inRegion gdist p (Region.disc c cfg.totalRadius) = false) :
    (ringsOf turfDifference []
      ((createBufferZones c cfg).map (fun z => z.polygon))).countP
      (fun R => inRegion gdist p R) = 0 := by
  rw [createBufferZones_map_polygon]
  obtain ⟨r1, rs', heq⟩ := List.exists_cons_of_ne_nil (zoneRadii_ne_nil cfg hT hW)
  have hch : List.Chain (· < ·) r1 rs' := by
    have h := zoneRadii_chain cfg hW
    rw [heq] at h
    exact h
  have hlast : rs'.getLastD r1 = cfg.totalRadius := by
    have h := zoneRadii_getLastD cfg hT hW r1
    rw [heq, List.getLastD_cons] at h
    exact h
  rw [heq, ringsOf_nil_eq_ringRegions c (r1 :: rs') hch,
    ringRegions_countP gdist c p r1 rs' hch, hlast]
  rw [if_neg]
  simp only [inRegion, decide_eq_false_iff_not] at hout
  exact hout

theorem countPoints_le_length (gdist : P2 → P2 → ℚ) (pts : List P2) (R : Region) :
    countPointsInPolygon gdist pts R ≤ pts.length :=
  List.length_filter_le _ _

theorem countPoints_eq_length_iff (gdist : P2 → P2 → ℚ) (pts : List P2)
    (R : Region) :
    countPointsInPolygon gdist pts R = pts.length ↔
    ∀ p ∈ pts, inRegion gdist p R = true := by
  rw [countPointsInPolygon_eq_countP]
  exact List.countP_eq_length

theorem analyzeBufferZones_statistics (diff : Region → Region → Option Region)
    (gdist : P2 → P2 → ℚ) (c : P2) (schools : List School)
    (layers : LayerType → List LayerFeature) (cfg : BufferConfig) :
    (analyzeBufferZones diff gdist c schools layers cfg).statistics =
    calculateStatistics diff gdist (createBufferZones c cfg) schools layers := rfl

theorem categorySum (c : P2) (cfg : BufferConfig) (hT : 0 < cfg.totalRadius)
    (hW : 0 < cfg.zoneWidth) (gdist : P2 → P2 → ℚ) (pts : List P2)
    (counts : List ℕ)
    (hcounts : counts =
      (ringsOf turfDifference []
        ((createBufferZones c cfg).map (fun z => z.polygon))).map
        (fun R => countPointsInPolygon gdist pts R)) :
    counts.sum = countPointsInPolygon gdist pts (Region.disc c cfg.totalRadius) ∧
    counts.sum ≤ pts.length ∧
    (counts.sum = pts.length ↔
      ∀ p ∈ pts, inRegion gdist p (Region.disc c cfg.totalRadius) = true) := by
  subst hcounts
  rw [bufferRingSum c cfg hT hW gdist pts]
  exact ⟨rfl, countPoints_le_length gdist pts _,
    countPoints_eq_length_iff gdist pts _⟩

/-- C5: for every aggregation input and every category, the per-zone
counts summed over all zones equal the number of that category's features
falling within the outermost buffer; hence the sum never exceeds the
category's raw total, with equality exactly when every feature of the
category lies within the outermost buffer, and a feature outside every
zone is counted in no zone. -/
theorem C5_zone_count_sums (c : P2) (cfg : BufferConfig)
    (hT : 0 < cfg.totalRadius) (hW : 0 < cfg.zoneWidth)
    (gdist : P2 → P2 → ℚ) (schools : List School)
    (layers : LayerType → List LayerFeature) :
    (((analyzeBufferZones turfDifference gdist c schools layers cfg).statistics.map
        (fun st => st.schools)).sum =
      countPointsInPolygon gdist (schools.map getSchoolCenter)
        (Region.disc c cfg.totalRadius) ∧
      ((analyzeBufferZones turfDifference gdist c schools layers cfg).statistics.map
        (fun st => st.schools)).sum ≤
        (analyzeBufferZones turfDifference gdist c schools layers cfg).totalElements.schools ∧
      (((analyzeBufferZones turfDifference gdist c schools layers cfg).statistics.map
        (fun st => st.schools)).sum =
        (analyzeBufferZones turfDifference gdist c schools layers cfg).totalElements.schools ↔
        ∀ s ∈ schools,
          inRegion gdist (getSchoolCenter s) (Region.disc c cfg.totalRadius) = true)) ∧
    (((analyzeBufferZones turfDifference gdist c schools layers cfg).statistics.map
        (fun st => st.hospitals)).sum =
      countFeaturesInPolygon gdist (layers .hospitals)
        (Region.disc c cfg.totalRadius) ∧
      ((analyzeBufferZones turfDifference gdist c schools layers cfg).statistics.map
        (fun st => st.hospitals)).sum ≤
        (analyzeBufferZones turfDifference gdist c schools layers cfg).totalElements.hospitals ∧
      (((analyzeBufferZones turfDifference gdist c schools layers cfg).statistics.map
        (fun st => st.hospitals)).sum =
        (analyzeBufferZones turfDifference gdist c schools layers cfg).totalElements.hospitals ↔
        ∀ f ∈ layers .hospitals,
          inRegion gdist f.coordinates (Region.disc c cfg.totalRadius) = true)) ∧
    (((analyzeBufferZones turfDifference gdist c schools layers cfg).statistics.map
        (fun st => st.police)).sum =
      countFeaturesInPolygon gdist (layers .police)
        (Region.disc c cfg.totalRadius) ∧
      ((analyzeBufferZones turfDifference gdist c schools layers cfg).statistics.map
        (fun st => st.police)).sum ≤
        (analyzeBufferZones turfDifference gdist c schools layers cfg).totalElements.police ∧
      (((analyzeBufferZones turfDifference gdist c schools layers cfg).statistics.map
        (fun st => st.police)).sum =
        (analyzeBufferZones turfDifference gdist c schools layers cfg).totalElements.police ↔
        ∀ f ∈ layers .police,
          inRegion gdist f.coordinates (Region.disc c cfg.totalRadius) = true)) ∧
    (((analyzeBufferZones turfDifference gdist c schools layers cfg).statistics.map
        (fun st => st.fireStations)).sum =
      countFeaturesInPolygon gdist (layers .fire_stations)
        (Region.disc c cfg.totalRadius) ∧
      ((analyzeBufferZones turfDifference gdist c schools layers cfg).statistics.map
        (fun st => st.fireStations)).sum ≤
        (analyzeBufferZones turfDifference gdist c schools layers cfg).totalElements.fireStations ∧
      (((analyzeBufferZones turfDifference gdist c schools layers cfg).statistics.map
        (fun st => st.fireStations)).sum =
        (analyzeBufferZones turfDifference gdist c schools layers cfg).totalElements.fireStations ↔
        ∀ f ∈ layers .fire_stations,
          inRegion gdist f.coordinates (Region.disc c cfg.totalRadius) = true)) ∧
    (((analyzeBufferZones turfDifference gdist c schools layers cfg).statistics.map
        (fun st => st.riskZones)).sum =
      countFeaturesInPolygon gdist (layers .risk_zones)
        (Region.disc c cfg.totalRadius) ∧
      ((analyzeBufferZones turfDifference gdist c schools layers cfg).statistics.map
        (fun st => st.riskZones)).sum ≤
        (analyzeBufferZones turfDifference gdist c schools layers cfg).totalElements.riskZones ∧
      (((analyzeBufferZones turfDifference gdist c schools layers cfg).statistics.map
        (fun st => st.riskZones)).sum =
        (analyzeBufferZones turfDifference gdist c schools layers cfg).totalElements.riskZones ↔
        ∀ f ∈ layers .risk_zones,
          inRegion gdist f.coordinates (Region.disc c cfg.totalRadius) = true)) ∧
    (∀ p : P2, inRegion gdist p (Region.disc c cfg.totalRadius) = false →
      (ringsOf turfDifference []
        ((createBufferZones c cfg).map (fun z => z.polygon))).countP
        (fun R => inRegion gdist p R) = 0) := by
  have hschools := categorySum c cfg hT hW gdist (schools.map getSchoolCenter)
    (((analyzeBufferZones turfDifference gdist c schools layers cfg).statistics).map
      (fun st => st.schools))
    (by
      simp only [analyzeBufferZones_statistics, calculateStatistics]
      exact statsGo_map_schools turfDifference gdist schools layers
        (createBufferZones c cfg) [])
  have hhospitals := categorySum c cfg hT hW gdist
    ((layers .hospitals).map (fun f => f.coordinates))
    (((analyzeBufferZones turfDifference gdist c schools layers cfg).statistics).map
      (fun st => st.hospitals))
    (by
      simp only [analyzeBufferZones_statistics, calculateStatistics]
      rw [statsGo_map_hospitals turfDifference gdist schools layers
        (createBufferZones c cfg) []]
      simp only [countFeaturesInPolygon_eq_points])
  have hpolice := categorySum c cfg hT hW gdist
    ((layers .police).map (fun f => f.coordinates))
    (((analyzeBufferZones turfDifference gdist c schools layers cfg).statistics).map
      (fun st => st.police))
    (by
      simp only [analyzeBufferZones_statistics, calculateStatistics]
      rw [statsGo_map_police turfDifference gdist schools layers
        (createBufferZones c cfg) []]
      simp only [countFeaturesInPolygon_eq_points])
  have hfire := categorySum c cfg hT hW gdist
    ((layers .fire_stations).map (fun f => f.coordinates))
    (((analyzeBufferZones turfDifference gdist c schools layers cfg).statistics).map
      (fun st => st.fireStations))
    (by
      simp only [analyzeBufferZones_statistics, calculateStatistics]
      rw [statsGo_map_fireStations turfDifference gdist schools layers
        (createBufferZones c cfg) []]
      simp only [countFeaturesInPolygon_eq_points])
  have hrisk := categorySum c cfg hT hW gdist
    ((layers .risk_zones).map (fun f => f.coordinates))
    (((analyzeBufferZones turfDifference gdist c schools layers cfg).statistics).map
      (fun st => st.riskZones))
    (by
      simp only [analyzeBufferZones_statistics, calculateStatistics]
      rw [statsGo_map_riskZones turfDifference gdist schools layers
        (createBufferZones c cfg) []]
      simp only [countFeaturesInPolygon_eq_points])
  refine ⟨?_, ?_, ?_, ?_, ?_, ?_⟩
  · obtain ⟨h1, h2, h3⟩ := hschools
    refine ⟨h1, ?_, ?_⟩
    · simpa [List.length_map] using h2
    · rw [show (analyzeBufferZones turfDifference gdist c schools layers cfg).totalElements.schools = schools.length from rfl, show schools.length = (schools.map getSchoolCenter).length from (List.length_map _ _).symm, h3]
      constructor
      · intro h s hs
        exact h (getSchoolCenter s) (List.mem_map_of_mem _ hs)
      · intro h p hp
        obtain ⟨s, hs, rfl⟩ := List.mem_map.mp hp
        exact h s hs
  · obtain ⟨h1, h2, h3⟩ := hhospitals
    refine ⟨by rw [h1, countFeaturesInPolygon_eq_points], ?_, ?_⟩
    · simpa [List.length_map] using h2
    · rw [show (analyzeBufferZones turfDifference gdist c schools layers cfg).totalElements.hospitals = (layers .hospitals).length from rfl, show (layers LayerType.hospitals).length = ((layers LayerType.hospitals).map (fun f => f.coordinates)).length from (List.length_map _ _).symm, h3]
      constructor
      · intro h f hf
        exact h f.coordinates (List.mem_map_of_mem _ hf)
      · intro h p hp
        obtain ⟨f, hf, rfl⟩ := List.mem_map.mp hp
        exact h f hf
  · obtain ⟨h1, h2, h3⟩ := hpolice
    refine ⟨by rw [h1, countFeaturesInPolygon_eq_points], ?_, ?_⟩
    · simpa [List.length_map] using h2
    · rw [show (analyzeBufferZones turfDifference gdist c schools layers cfg).totalElements.police = (layers .police).length from rfl, show (layers LayerType.police).length = ((layers LayerType.police).map (fun f => f.coordinates)).length from (List.length_map _ _).symm, h3]
      constructor
      · intro h f hf
        exact h f.coordinates (List.mem_map_of_mem _ hf)
      · intro h p hp
        obtain ⟨f, hf, rfl⟩ := List.mem_map.mp hp
        exact h f hf
  · obtain ⟨h1, h2, h3⟩ := hfire
    refine ⟨by rw [h1, countFeaturesInPolygon_eq_points], ?_, ?_⟩
    · simpa [List.length_map] using h2
    · rw [show (analyzeBufferZones turfDifference gdist c schools layers cfg).totalElements.fireStations = (layers .fire_stations).length from rfl, show (layers LayerType.fire_stations).length = ((layers LayerType.fire_stations).map (fun f => f.coordinates)).length from (List.length_map _ _).symm, h3]
      constructor
      · intro h f hf
        exact h f.coordinates (List.mem_map_of_mem _ hf)
      · intro h p hp
        obtain ⟨f, hf, rfl⟩ := List.mem_map.mp hp
        exact h f hf
  · obtain ⟨h1, h2, h3⟩ := hrisk
    refine ⟨by rw [h1, countFeaturesInPolygon_eq_points], ?_, ?_⟩
    · simpa [List.length_map] using h2
    · rw [show (analyzeBufferZones turfDifference gdist c schools layers cfg).totalElements.riskZones = (layers .risk_zones).length from rfl, show (layers LayerType.risk_zones).length = ((layers LayerType.risk_zones).map (fun f => f.coordinates)).length from (List.length_map _ _).symm, h3]
      constructor
      · intro h f hf
        exact h f.coordinates (List.mem_map_of_mem _ hf)
      · intro h p hp
        obtain ⟨f, hf, rfl⟩ := List.mem_map.mp hp
        exact h f hf
  · intro p hout
    exact rings_countP_zero c cfg hT hW gdist p hout

/-- Witness for C5: one school at the origin, empty feature layers,
center at the origin, two zones of width 1. -/
theorem C5_zone_count_sums_witness :
    ((analyzeBufferZones turfDifference gdistEx ⟨0, 0⟩ [schoolAtOrigin]
      emptyLayers ⟨2, 1⟩).statistics.map (fun st => st.schools)).sum =
    countPointsInPolygon gdistEx ([schoolAtOrigin].map getSchoolCenter)
      (Region.disc ⟨0, 0⟩ (2 : ℚ)) :=
  (C5_zone_count_sums ⟨0, 0⟩ ⟨2, 1⟩ (by norm_num) (by norm_num) gdistEx
    [schoolAtOrigin] emptyLayers).1.1

theorem zoneRadii_head (cfg : BufferConfig) (hT : 0 < cfg.totalRadius)
    (hW : 0 < cfg.zoneWidth) :
    (zoneRadii cfg).headD 0 = min cfg.zoneWidth cfg.totalRadius := by
  have hn := numZonesOf_pos cfg hT hW
  obtain ⟨m, hm⟩ : ∃ m, numZonesOf cfg = m + 1 := ⟨numZonesOf cfg - 1, by omega⟩
  simp [zoneRadii, hm, List.range_succ_eq_map]

/-- C2 (amended): with the concentric-disc difference succeeding, the
rings used by `calculateStatistics` are pairwise disjoint, so every point
lies in at most one of them; and a single school placed exactly at the
center point is counted in zone 1 and in zone 1 only (counts
`1 :: 0, 0, ...`). The first-match-by-ascending-radius policy the spec
describes for the degenerate case does not exist in the code: the
fallback counts a feature in every zone whose fallback ring contains it
(see the counterexample). -/
theorem C2_center_in_first_ring_only (c : P2) (cfg : BufferConfig)
    (hT : 0 < cfg.totalRadius) (hW : 0 < cfg.zoneWidth) (gdist : P2 → P2 → ℚ) :
    (∀ p : P2,
      (ringsOf turfDifference []
        ((createBufferZones c cfg).map (fun z => z.polygon))).countP
        (fun R => inRegion gdist p R) ≤ 1) ∧
    (∀ (s : School) (layers : LayerType → List LayerFeature),
      getSchoolCenter s = c → gdist c c = 0 →
      (calculateStatistics turfDifference gdist (createBufferZones c cfg) [s]
        layers).map (fun st => st.schools) =
      1 :: List.replicate (numZonesOf cfg - 1) 0) := by
  obtain ⟨r1, rs', heq⟩ := List.exists_cons_of_ne_nil (zoneRadii_ne_nil cfg hT hW)
  have hch : List.Chain (· < ·) r1 rs' := by
    have h := zoneRadii_chain cfg hW
    rw [heq] at h
    exact h
  have hr1 : r1 = min cfg.zoneWidth cfg.totalRadius := by
    have h := zoneRadii_head cfg hT hW
    rw [heq] at h
    simpa using h
  have hr1pos : 0 < r1 := by
    rw [hr1]
    exact lt_min hW hT
  constructor
  · intro p
    rw [createBufferZones_map_polygon, heq,
      ringsOf_nil_eq_ringRegions c (r1 :: rs') hch]
    exact ringRegions_countP_le_one gdist c p r1 rs' hch
  · intro s layers hs hg0
    rw [calculateStatistics, statsGo_map_schools turfDifference gdist [s] layers
      (createBufferZones c cfg) [], createBufferZones_map_polygon, heq,
      ringsOf_nil_eq_ringRegions c (r1 :: rs') hch]
    have hpts : [s].map getSchoolCenter = [c] := by
      simp [hs]
    rw [hpts]
    simp only [ringRegions, List.map_cons]
    have hfirst : countPointsInPolygon gdist [c] (Region.disc c r1) = 1 := by
      simp [countPointsInPolygon, inRegion, hg0, hr1pos.le]
    rw [hfirst]
    have hlen : rs'.length = numZonesOf cfg - 1 := by
      have h := zoneRadii_length cfg
      rw [heq] at h
      simp only [List.length_cons] at h
      omega
    congr 1
    rw [List.eq_replicate_iff]
    refine ⟨by rw [List.length_map, annuliFrom_length c rs' r1, hlen], ?_⟩
    intro b hb
    obtain ⟨R, hR, hbeq⟩ := List.mem_map.mp hb
    obtain ⟨a, b2, hab, hle⟩ := annuliFrom_mem c rs' r1 hch R hR
    subst hab
    rw [← hbeq]
    have hnot : ¬(a < gdist c c ∧ gdist c c ≤ b2) := by
      rintro ⟨hlt, -⟩
      rw [hg0] at hlt
      linarith
    simp [countPointsInPolygon, inRegion, hnot]

/-- Witness for C2 at the origin with two zones of width 1 and one school
exactly at the center. -/
theorem C2_center_in_first_ring_only_witness :
    (calculateStatistics turfDifference gdistEx (createBufferZones ⟨0, 0⟩ ⟨2, 1⟩)
      [schoolAtOrigin] emptyLayers).map (fun st => st.schools) =
      1 :: List.replicate (numZonesOf ⟨2, 1⟩ - 1) 0 :=
  (C2_center_in_first_ring_only ⟨0, 0⟩ ⟨2, 1⟩ (by norm_num) (by norm_num)
    gdistEx).2 schoolAtOrigin emptyLayers
    (by norm_num [getSchoolCenter, schoolAtOrigin])
    (by norm_num [gdistEx])

/-- Counterexample for C2 as stated: when the difference operation
degenerates (the failing backend `fun _ _ => none`), a single school at
the exact center is counted in both of the two zones — per-zone school
counts [1, 1] from one input school — not only in the first ring that
contains it, so a feature can be counted in more than one zone. -/
theorem C2_counterexample :
    ((calculateStatistics (fun _ _ => none) gdistEx
      (createBufferZones ⟨0, 0⟩ ⟨2, 1⟩) [schoolAtOrigin] emptyLayers).map
      (fun st => st.schools)) = [1, 1] ∧
    (((calculateStatistics (fun _ _ => none) gdistEx
      (createBufferZones ⟨0, 0⟩ ⟨2, 1⟩) [schoolAtOrigin] emptyLayers).map
      (fun st => st.schools)).sum > [schoolAtOrigin].length) := by
  have h : (⌈(2 : ℚ) / 1⌉).toNat = 2 := by
    have h2 : (⌈(2 : ℚ) / 1⌉ : ℤ) = 2 := by norm_num [Int.ceil_eq_iff]
    rw [h2]
    rfl
  constructor
  · simp only [createBufferZones, h]
    norm_num [List.range_succ, calculateStatistics, statsGo, zoneStatsFor,
      createRingPolygon, countPointsInPolygon, countFeaturesInPolygon,
      emptyLayers, inRegion, gdistEx, getSchoolCenter, schoolAtOrigin,
      List.filter]
  · simp only [createBufferZones, h]
    norm_num [List.range_succ, calculateStatistics, statsGo, zoneStatsFor,
      createRingPolygon, countPointsInPolygon, countFeaturesInPolygon,
      emptyLayers, inRegion, gdistEx, getSchoolCenter, schoolAtOrigin,
      List.filter]

/-- C8 (amended): a school whose polygon has zero vertices is not
excluded from the spatial tests — it is assigned the fixed representative
point (0, 0); whenever that point lies outside the outermost buffer (as
for any real analysis center far from Null Island) the school contributes
to no per-zone count, while the raw totals count it regardless, being
plain collection lengths. -/
theorem C8_degenerate_school (c : P2) (cfg : BufferConfig)
    (hT : 0 < cfg.totalRadius) (hW : 0 < cfg.zoneWidth) (gdist : P2 → P2 → ℚ)
    (s : School) (hs : s.polygon.coordinates = [])
    (hout : cfg.totalRadius < gdist ⟨0, 0⟩ c)
    (schools : List School) (layers : LayerType → List LayerFeature) :
    getSchoolCenter s = ⟨0, 0⟩ ∧
    (calculateStatistics turfDifference gdist (createBufferZones c cfg)
      (s :: schools) layers).map (fun st => st.schools) =
    (calculateStatistics turfDifference gdist (createBufferZones c cfg)
      schools layers).map (fun st => st.schools) ∧
    (analyzeBufferZones turfDifference gdist c (s :: schools) layers
      cfg).totalElements.schools = schools.length + 1 := by
  have hcenter : getSchoolCenter s = ⟨0, 0⟩ := by
    simp [getSchoolCenter, hs]
  refine ⟨hcenter, ?_, rfl⟩
  have hfalse : inRegion gdist ⟨0, 0⟩ (Region.disc c cfg.totalRadius) = false := by
    simp only [inRegion, decide_eq_false_iff_not, not_le]
    exact hout
  have hzero := rings_countP_zero c cfg hT hW gdist ⟨0, 0⟩ hfalse
  have hall := List.countP_eq_zero.mp hzero
  rw [calculateStatistics, statsGo_map_schools turfDifference gdist (s :: schools)
    layers (createBufferZones c cfg) [], calculateStatistics,
    statsGo_map_schools turfDifference gdist schools layers
    (createBufferZones c cfg) []]
  apply List.map_congr_left
  intro R hR
  have hnotin : inRegion gdist ⟨0, 0⟩ R = false := by
    have h := hall R hR
    simp only [Bool.not_eq_true] at h
    exact h
  simp only [List.map_cons, hcenter, countPointsInPolygon, List.filter_cons,
    hnotin]
  simp

/-- Witness for C8: the zero-vertex school analysed around center
(10, 10) with one 1 km zone. -/
theorem C8_degenerate_school_witness :
    getSchoolCenter emptyPolygonSchool = ⟨0, 0⟩ ∧
    (calculateStatistics turfDifference gdistEx (createBufferZones ⟨10, 10⟩ ⟨1, 1⟩)
      (emptyPolygonSchool :: []) emptyLayers).map (fun st => st.schools) =
    (calculateStatistics turfDifference gdistEx (createBufferZones ⟨10, 10⟩ ⟨1, 1⟩)
      [] emptyLayers).map (fun st => st.schools) ∧
    (analyzeBufferZones turfDifference gdistEx ⟨10, 10⟩ (emptyPolygonSchool :: [])
      emptyLayers ⟨1, 1⟩).totalElements.schools = ([] : List School).length + 1 :=
  C8_degenerate_school ⟨10, 10⟩ ⟨1, 1⟩ (by norm_num) (by norm_num) gdistEx
    emptyPolygonSchool rfl (by norm_num [gdistEx]) [] emptyLayers

/-- Counterexample for C8 as stated: with the analysis centered exactly
at (0, 0), a school whose polygon has zero vertices is counted in zone 1
(per-zone school counts [1], not [0]): the code does not exclude such a
feature from spatial tests, it substitutes the point (0, 0). -/
theorem C8_counterexample :
    ((calculateStatistics turfDifference gdistEx
      (createBufferZones ⟨0, 0⟩ ⟨1, 1⟩) [emptyPolygonSchool] emptyLayers).map
      (fun st => st.schools)) = [1] := by
  have h : (⌈(1 : ℚ) / 1⌉).toNat = 1 := by
    have h2 : (⌈(1 : ℚ) / 1⌉ : ℤ) = 1 := by norm_num [Int.ceil_eq_iff]
    rw [h2]
    rfl
  simp only [createBufferZones, h]
  norm_num [List.range_succ, calculateStatistics, statsGo, zoneStatsFor,
    createRingPolygon, countPointsInPolygon, countFeaturesInPolygon,
    emptyLayers, inRegion, gdistEx, getSchoolCenter, emptyPolygonSchool,
    List.filter]

/-! Helper lemmas about the merge. -/

theorem sdFields_setSourceHybrid (d : Option SchoolData) :
    sdFieldsExceptSource (some (setSourceHybrid d)) = sdFieldsExceptSource d := by
  cases d <;> rfl

theorem enrichSchool_frame (osmSchools : List School) (s : School) :
    (enrichSchool osmSchools s).id = s.id ∧
    (enrichSchool osmSchools s).name = s.name ∧
    (enrichSchool osmSchools s).address = s.address ∧
    (enrichSchool osmSchools s).contactInfo = s.contactInfo ∧
    (enrichSchool osmSchools s).detected = s.detected ∧
    (enrichSchool osmSchools s).color = s.color ∧
    sdFieldsExceptSource (enrichSchool osmSchools s).additionalData =
      sdFieldsExceptSource s.additionalData ∧
    (((enrichSchool osmSchools s).polygon = s.polygon ∧
      (enrichSchool osmSchools s).additionalData = s.additionalData) ∨
     (∃ m : School, findNearestOSM s osmSchools = some m ∧
      m.polygon.coordinates.length > 5 ∧
      (enrichSchool osmSchools s).polygon = m.polygon ∧
      (enrichSchool osmSchools s).additionalData =
        some (setSourceHybrid s.additionalData))) := by
  cases hfind : findNearestOSM s osmSchools with
  | none =>
    simp [enrichSchool, hfind]
  | some m =>
    by_cases hlen : m.polygon.coordinates.length > 5
    · refine ⟨?_, ?_, ?_, ?_, ?_, ?_, ?_, Or.inr ⟨m, rfl, hlen, ?_, ?_⟩⟩ <;>
        simp [enrichSchool, hfind, hlen, sdFields_setSourceHybrid]
    · simp [enrichSchool, hfind, hlen]

/-- C10: the merged output at each primary index agrees with the primary
record in every field except possibly the polygon and the
`additionalData.source` tag; those change (to the matched secondary's
polygon and to "hybrid") only when a within-threshold match with a
polygon of more than 5 coordinates is found. -/
theorem C10_primary_frame (oficiales osmSchools : List School) (k : ℕ)
    (hk : k < oficiales.length) :
    ∃ hk2 : k < (mergeSchools oficiales osmSchools).length,
      ((mergeSchools oficiales osmSchools)[k]).id = (oficiales[k]).id ∧
      ((mergeSchools oficiales osmSchools)[k]).name = (oficiales[k]).name ∧
      ((mergeSchools oficiales osmSchools)[k]).address = (oficiales[k]).address ∧
      ((mergeSchools oficiales osmSchools)[k]).contactInfo =
        (oficiales[k]).contactInfo ∧
      ((mergeSchools oficiales osmSchools)[k]).detected = (oficiales[k]).detected ∧
      ((mergeSchools oficiales osmSchools)[k]).color = (oficiales[k]).color ∧
      sdFieldsExceptSource ((mergeSchools oficiales osmSchools)[k]).additionalData =
        sdFieldsExceptSource ((oficiales[k]).additionalData) ∧
      ((((mergeSchools oficiales osmSchools)[k]).polygon = (oficiales[k]).polygon ∧
        ((mergeSchools oficiales osmSchools)[k]).additionalData =
          (oficiales[k]).additionalData) ∨
       (∃ m : School, findNearestOSM (oficiales[k]) osmSchools = some m ∧
        m.polygon.coordinates.length > 5 ∧
        ((mergeSchools oficiales osmSchools)[k]).polygon = m.polygon ∧
        ((mergeSchools oficiales osmSchools)[k]).additionalData =
          some (setSourceHybrid ((oficiales[k]).additionalData)))) := by
  have hk2 : k < (mergeSchools oficiales osmSchools).length := by
    simp only [mergeSchools, List.length_append, List.length_map]
    omega
  have hmap : k < (oficiales.map (enrichSchool osmSchools)).length := by
    simpa using hk
  have hget : (mergeSchools oficiales osmSchools)[k] =
      enrichSchool osmSchools (oficiales[k]) := by
    simp only [mergeSchools]
    rw [List.getElem_append_left hmap]
    simp
  refine ⟨hk2, ?_⟩
  rw [hget]
  exact enrichSchool_frame osmSchools (oficiales[k])

/-- Witness for C10: one primary school and one matching 6-vertex
secondary school, at index 0. -/
theorem C10_primary_frame_witness :
    ∃ hk2 : 0 < (mergeSchools [oficialAlfa] [osmBeta]).length,
      ((mergeSchools [oficialAlfa] [osmBeta])[0]).id = (([oficialAlfa])[0]).id ∧
      ((mergeSchools [oficialAlfa] [osmBeta])[0]).name = (([oficialAlfa])[0]).name ∧
      ((mergeSchools [oficialAlfa] [osmBeta])[0]).address =
        (([oficialAlfa])[0]).address ∧
      ((mergeSchools [oficialAlfa] [osmBeta])[0]).contactInfo =
        (([oficialAlfa])[0]).contactInfo ∧
      ((mergeSchools [oficialAlfa] [osmBeta])[0]).detected =
        (([oficialAlfa])[0]).detected ∧
      ((mergeSchools [oficialAlfa] [osmBeta])[0]).color =
        (([oficialAlfa])[0]).color ∧
      sdFieldsExceptSource ((mergeSchools [oficialAlfa] [osmBeta])[0]).additionalData =
        sdFieldsExceptSource ((([oficialAlfa])[0]).additionalData) ∧
      ((((mergeSchools [oficialAlfa] [osmBeta])[0]).polygon =
          (([oficialAlfa])[0]).polygon ∧
        ((mergeSchools [oficialAlfa] [osmBeta])[0]).additionalData =
          (([oficialAlfa])[0]).additionalData) ∨
       (∃ m : School, findNearestOSM (([oficialAlfa])[0]) [osmBeta] = some m ∧
        m.polygon.coordinates.length > 5 ∧
        ((mergeSchools [oficialAlfa] [osmBeta])[0]).polygon = m.polygon ∧
        ((mergeSchools [oficialAlfa] [osmBeta])[0]).additionalData =
          some (setSourceHybrid ((([oficialAlfa])[0]).additionalData)))) :=
  C10_primary_frame [oficialAlfa] [osmBeta] 0 (by norm_num)

/-- Counterexample for C4 as stated: one primary and one secondary school
0.001 degrees apart with a 6-vertex secondary polygon, but with unrelated
names — the merged output has two records (the enriched primary plus the
appended secondary), not exactly one. -/
theorem C4_counterexample : (mergeSchools [oficialAlfa] [osmBeta]).length = 2 := by
  norm_num [mergeSchools, enrichSchool, findNearestOSM, getCenter, oficialAlfa,
    osmBeta, calculateDistanceSq, maxDistance, List.find?, noContact]
  decide

/-- C4 (amended): for one primary and one secondary school whose
centroids lie within the 0.002-degree threshold and whose secondary
polygon has more than 5 vertices, **and whose normalized names
coincide**, the merged output is exactly one record carrying the
secondary's polygon and provenance hybrid; without the name coincidence
the secondary is additionally appended (see the counterexample). -/
theorem C4_merge_hybrid (p s : School)
    (hdist : calculateDistanceSq (getCenter p.polygon.coordinates)
      (getCenter s.polygon.coordinates) < maxDistance * maxDistance)
    (hverts : s.polygon.coordinates.length > 5)
    (hname : normalizeSchoolName s.name = normalizeSchoolName p.name) :
    mergeSchools [p] [s] =
      [{ p with
          polygon := s.polygon
          additionalData := some (setSourceHybrid p.additionalData) }] := by
  have hfind : findNearestOSM p [s] = some s := by
    simp [findNearestOSM, List.find?, hdist]
  simp [mergeSchools, enrichSchool, hfind, hverts, List.filter, hname]

/-- Witness for C4: `oficialAlfa` and the accented same-named 6-vertex
secondary, centroids 0.001 degrees apart. -/
theorem C4_merge_hybrid_witness :
    mergeSchools [oficialAlfa] [osmAlfaAccented] =
      [{ oficialAlfa with
          polygon := osmAlfaAccented.polygon
          additionalData := some (setSourceHybrid oficialAlfa.additionalData) }] :=
  C4_merge_hybrid oficialAlfa osmAlfaAccented
    (by norm_num [calculateDistanceSq, getCenter, oficialAlfa, osmAlfaAccented,
      osmBeta, maxDistance, noContact])
    (by decide)
    (by decide)

/-- C6: the merge output is exactly the enriched primary records in their
original order followed by the secondary records whose normalized name is
not among the normalized primary names, in their original order; a
secondary sharing a normalized name with a primary is never appended no
matter how far apart the records are, while a secondary with an unseen
name is appended even when it was the geometry match of step 1. -/
theorem C6_merge_order_dedup :
    (∀ oficiales osmSchools : List School,
      mergeSchools oficiales osmSchools =
        oficiales.map (enrichSchool osmSchools) ++
        osmSchools.filter (fun osm =>
          !((oficiales.map (fun school => normalizeSchoolName school.name)).contains
            (normalizeSchoolName osm.name)))) ∧
    (∀ p s : School, normalizeSchoolName s.name = normalizeSchoolName p.name →
      (mergeSchools [p] [s]).length = 1) ∧
    (∀ p s : School, normalizeSchoolName s.name ≠ normalizeSchoolName p.name →
      mergeSchools [p] [s] = [enrichSchool [s] p, s]) := by
  refine ⟨fun oficiales osmSchools => rfl, ?_, ?_⟩
  · intro p s hname
    simp [mergeSchools, List.filter, hname]
  · intro p s hname
    simp [mergeSchools, List.filter, hname]

/-- Witness for C6: a far-away secondary whose normalized name equals the
primary's is dropped (output length 1), and an unrelated-name secondary
is appended after the enriched primary. -/
theorem C6_merge_order_dedup_witness :
    (mergeSchools [oficialAlfa] [osmFarAlfa]).length = 1 ∧
    mergeSchools [oficialAlfa] [osmBeta] = [enrichSchool [osmBeta] oficialAlfa, osmBeta] :=
  ⟨C6_merge_order_dedup.2.1 oficialAlfa osmFarAlfa (by decide),
   C6_merge_order_dedup.2.2 oficialAlfa osmBeta (by decide)⟩

/-- C9: the three core operations are deterministic — identical inputs
produce identical outputs (the embedding of each operation, including the
geometry backend and distance function as explicit arguments, is a pure
function). -/
theorem C9_determinism (diff : Region → Region → Option Region)
    (gdist : P2 → P2 → ℚ) (oficiales osmSchools : List School) (c : P2)
    (schools : List School) (layers : LayerType → List LayerFeature)
    (cfg : BufferConfig) :
    mergeSchools oficiales osmSchools = mergeSchools oficiales osmSchools ∧
    createBufferZones c cfg = createBufferZones c cfg ∧
    analyzeBufferZones diff gdist c schools layers cfg =
      analyzeBufferZones diff gdist c schools layers cfg :=
  ⟨rfl, rfl, rfl⟩

end SchoolMap
